import Mathlib

/-!
# Verification of the teapot loader/renderer (`src/teapot.mjs`)

A shallow embedding of the mesh parser (`loadTeapotGeometry`), the shader
pipeline construction (`setupShaderProgram`), the perspective projection
matrix builder (`perspectiveProjection`), and the keyboard rotation handler
from `src/teapot.mjs` (and its variant `src/unnamed/part_000`, whose parser,
projection and input code are identical).

JavaScript numbers are IEEE doubles.  Every numeric value the verified
claims touch is either `NaN` or exactly representable, so numbers are
modelled as `Option ℚ` with `none` standing for `NaN`: on this fragment the
model agrees with double arithmetic.  `Float32Array` narrowing is the
identity on `NaN` and on the exactly representable values concerned, and is
modelled as the identity.  The decimal-numeral grammar of `parseFloat` and
of string-to-number coercion is modelled in full (sign, integer part,
fraction, exponent, longest prefix resp. whole-string match); the `Infinity`
and hex/octal/binary literal forms, which no claim exercises, are not
modelled and yield `NaN` in the model.
-/

attribute [local semireducible] Rat.add Rat.mul Rat.inv Rat.sub Rat.ofScientific

/-- The whitespace characters recognised by JavaScript `trim`, `split` and
`parseFloat` that can occur in the inputs considered (ASCII whitespace). -/
def jsIsWhitespace (c : Char) : Bool :=
  c = ' ' || c = '\t' || c = '\n' || c = '\r' || c = '\x0b' || c = '\x0c'

/-- JavaScript `String.prototype.trim`: drop whitespace from both ends. -/
def jsTrim (s : List Char) : List Char :=
  ((s.dropWhile jsIsWhitespace).reverse.dropWhile jsIsWhitespace).reverse

/-- JavaScript `String.prototype.split` with a single-character separator:
`"".split(sep) = [""]`, separators delimit (possibly empty) fields. -/
def jsSplitChar (sep : Char) : List Char → List (List Char)
  | [] => [[]]
  | c :: cs =>
    if c = sep then [] :: jsSplitChar sep cs
    else
      match jsSplitChar sep cs with
      | t :: ts => (c :: t) :: ts
      | [] => [[c]]

/-- Numeric value of a decimal digit character. -/
def digitVal (c : Char) : ℕ := c.toNat - 48

/-- Value of a string of decimal digits. -/
def natDigits (ds : List Char) : ℕ :=
  ds.foldl (fun a c => 10 * a + digitVal c) 0

/-- `10^z` for a signed exponent. -/
def pow10 (z : ℤ) : ℚ :=
  if 0 ≤ z then (10 : ℚ) ^ z.toNat else 1 / (10 : ℚ) ^ (-z).toNat

/-- Read an optional exponent suffix `e`/`E`, optional sign, digits.  Returns
the exponent and the rest, or `none` when no valid exponent starts here
(in which case the caller leaves the input untouched, as JavaScript does). -/
def readExponent (s : List Char) : Option (ℤ × List Char) :=
  match s with
  | [] => none
  | c :: rest =>
    if c = 'e' ∨ c = 'E' then
      let sgnRest : ℤ × List Char :=
        match rest with
        | '+' :: t => (1, t)
        | '-' :: t => (-1, t)
        | _ => (1, rest)
      let ds := sgnRest.2.takeWhile Char.isDigit
      let r := sgnRest.2.dropWhile Char.isDigit
      if ds.isEmpty then none else some (sgnRest.1 * (natDigits ds : ℤ), r)
    else none

/-- Longest-prefix parse of an unsigned decimal numeral
`digits [ . digits ] [ exponent ]`; at least one digit must be present.
Returns the value and the unconsumed rest. -/
def parseUnsigned (s : List Char) : Option (ℚ × List Char) :=
  let d1 := s.takeWhile Char.isDigit
  let r1 := s.dropWhile Char.isDigit
  let fr : List Char × List Char :=
    match r1 with
    | '.' :: rest => (rest.takeWhile Char.isDigit, rest.dropWhile Char.isDigit)
    | _ => ([], r1)
  let d2 := fr.1
  let r2 := fr.2
  if d1.isEmpty && d2.isEmpty then none
  else
    let mant : ℚ := (natDigits d1 : ℚ) + (natDigits d2 : ℚ) / (10 : ℚ) ^ d2.length
    match readExponent r2 with
    | some er => some (mant * pow10 er.1, er.2)
    | none => some (mant, r2)

/-- Longest-prefix parse of an optionally signed decimal numeral. -/
def parseSigned (s : List Char) : Option (ℚ × List Char) :=
  match s with
  | [] => none
  | c :: rest =>
    if c = '-' then (parseUnsigned rest).map (fun p => (-p.1, p.2))
    else if c = '+' then parseUnsigned rest
    else parseUnsigned s

/-- JavaScript `parseFloat`: skip leading whitespace, parse the longest
numeric prefix, `NaN` (modelled as `none`) when there is none. -/
def jsParseFloat (s : List Char) : Option ℚ :=
  (parseSigned (s.dropWhile jsIsWhitespace)).map Prod.fst

/-- JavaScript string-to-number coercion (`ToNumber`), as triggered by
`str - 1`: trim, empty string is `0`, otherwise the whole string must be a
numeral, else `NaN`. -/
def jsToNumber (s : List Char) : Option ℚ :=
  let t := jsTrim s
  if t.isEmpty then some 0
  else
    match parseSigned t with
    | some (q, []) => some q
    | _ => none

/-- Truncation toward zero, as performed by `parseInt` applied to a number
(the number is rendered in decimal and its integer-part prefix is parsed;
on the plain positional renderings concerned this truncates toward zero)
and by the `ToUint16` integer conversion. -/
def ratTrunc (q : ℚ) : ℤ := if 0 ≤ q then ⌊q⌋ else ⌈q⌉

/-- One face-corner token: `parseInt(vertexData.split('/')[0] - 1)` — take
the substring before the first `/`, coerce it to a number, subtract 1,
and truncate to an integer.  `NaN` (`none`) when the coercion fails. -/
def faceToken (tok : List Char) : Option ℚ :=
  let core := (jsSplitChar '/' tok).headD []
  match jsToNumber core with
  | some q => some ((ratTrunc (q - 1) : ℤ) : ℚ)
  | none => none

/-- `line.trim().split(' ')` — the token list of one input line. -/
def lineParts (line : List Char) : List (List Char) :=
  jsSplitChar ' ' (jsTrim line)

/-- `parts[0]` — the tag of one input line (`split` never yields an empty
array, so the default is never used). -/
def lineTag (line : List Char) : List Char := (lineParts line).headD []

/-- The three accumulator arrays of `loadTeapotGeometry` before the typed
array conversions: `vertices` and `normals` are lists of per-line rows,
`indexes` is flat (the source spreads each face's indices with `push(...)`). -/
structure RawMesh where
  vertices : List (List (Option ℚ))
  indexes : List (Option ℚ)
  normals : List (List (Option ℚ))
deriving DecidableEq

/-- The body of the parsing loop of `loadTeapotGeometry`: dispatch on the
first token of the trimmed, space-split line. -/
def parseLine (acc : RawMesh) (line : List Char) : RawMesh :=
  if lineTag line = ['v'] then
    { acc with vertices := acc.vertices ++ [(lineParts line).tail.map jsParseFloat] }
  else if lineTag line = ['f'] then
    { acc with indexes := acc.indexes ++ (lineParts line).tail.map faceToken }
  else if lineTag line = ['v', 'n'] then
    { acc with normals := acc.normals ++ [(lineParts line).tail.map jsParseFloat] }
  else acc

/-- The result of `loadTeapotGeometry` after the typed-array conversions:
`indexes` through `Uint16Array` (natural numbers below `2^16`), `vertices`
and `normals` flattened into `Float32Array` (narrowing modelled as the
identity, see the header). -/
structure Mesh where
  indexes : List ℕ
  vertices : List (Option ℚ)
  normals : List (Option ℚ)
deriving DecidableEq

/-- The `ToUint16` element conversion of `new Uint16Array(array)`:
`NaN` becomes `0`, numbers truncate toward zero and reduce modulo `2^16`. -/
def toUint16 : Option ℚ → ℕ
  | none => 0
  | some q => ((ratTrunc q) % 65536).toNat

/-- `teapotText.split('\n')` — the line list of the fetched text. -/
def jsLines (text : String) : List (List Char) :=
  jsSplitChar '\n' text.toList

/-- The parsing loop of `loadTeapotGeometry` over the whole text. -/
def rawGeometry (text : String) : RawMesh :=
  (jsLines text).foldl parseLine ⟨[], [], []⟩

/-- `loadTeapotGeometry`, as a function of the fetched mesh text (the
`fetch` of `/teapot.obj` is the external asset boundary): parse line by
line, then build the three typed arrays. -/
def loadTeapotGeometry (text : String) : Mesh :=
  let raw := rawGeometry text
  { indexes := raw.indexes.map toUint16
    vertices := raw.vertices.flatten
    normals := raw.normals.flatten }

/-- The rows one line contributes to the accumulator list selected by tag
`t` (`['v']` for vertices, `['v', 'n']` for normals). -/
def lineRows (t : List Char) (l : List Char) : List (List (Option ℚ)) :=
  if lineTag l = t then [(lineParts l).tail.map jsParseFloat] else []

/-- The index entries one line contributes (nonempty only for `f` lines). -/
def lineIndexes (l : List Char) : List (Option ℚ) :=
  if lineTag l = ['f'] then (lineParts l).tail.map faceToken else []

/-- The number of lines carrying a given tag. -/
def countTag (t : List Char) : List (List Char) → ℕ
  | [] => 0
  | l :: ls => (if lineTag l = t then 1 else 0) + countTag t ls

theorem foldl_parseLine (ls : List (List Char)) (acc : RawMesh) :
    ls.foldl parseLine acc =
      { vertices := acc.vertices ++ (ls.map (lineRows ['v'])).flatten
        indexes := acc.indexes ++ (ls.map lineIndexes).flatten
        normals := acc.normals ++ (ls.map (lineRows ['v', 'n'])).flatten } := by
  induction ls generalizing acc with
  | nil => simp
  | cons l ls ih =>
    rw [List.foldl_cons, ih]
    unfold parseLine lineRows lineIndexes
    by_cases h1 : lineTag l = ['v']
    · simp [h1]
    · by_cases h2 : lineTag l = ['f']
      · simp [h1, h2]
      · by_cases h3 : lineTag l = ['v', 'n']
        · simp [h1, h2, h3]
        · simp [h1, h2, h3]

theorem rawGeometry_eq (text : String) :
    rawGeometry text =
      { vertices := ((jsLines text).map (lineRows ['v'])).flatten
        indexes := ((jsLines text).map lineIndexes).flatten
        normals := ((jsLines text).map (lineRows ['v', 'n'])).flatten } := by
  unfold rawGeometry
  rw [foldl_parseLine]
  simp

theorem rows_flatten_length (t : List Char) (ls : List (List Char))
    (h : ∀ l ∈ ls, lineTag l = t → ((lineParts l).tail).length = 3) :
    ((ls.map (lineRows t)).flatten).flatten.length = 3 * countTag t ls := by
  induction ls with
  | nil => simp [countTag]
  | cons l ls ih =>
    have hrest : ∀ l' ∈ ls, lineTag l' = t → ((lineParts l').tail).length = 3 :=
      fun l' hm => h l' (List.mem_cons_of_mem _ hm)
    by_cases hx : lineTag l = t
    · have h3 := h l (List.mem_cons_self _ _) hx
      rw [List.length_tail] at h3
      simp [lineRows, countTag, hx, ih hrest, Nat.mul_add]
      omega
    · simp [lineRows, countTag, hx, ih hrest]

theorem lineIndexes_flatten_length (k : ℕ) (ls : List (List Char))
    (h : ∀ l ∈ ls, lineTag l = ['f'] → ((lineParts l).tail).length = k) :
    ((ls.map lineIndexes).flatten).length = k * countTag ['f'] ls := by
  induction ls with
  | nil => simp [countTag]
  | cons l ls ih =>
    have hrest : ∀ l' ∈ ls, lineTag l' = ['f'] → ((lineParts l').tail).length = k :=
      fun l' hm => h l' (List.mem_cons_of_mem _ hm)
    by_cases hx : lineTag l = ['f']
    · have hk := h l (List.mem_cons_self _ _) hx
      rw [List.length_tail] at hk
      simp [lineIndexes, countTag, hx, ih hrest, Nat.mul_add]
      omega
    · simp [lineIndexes, countTag, hx, ih hrest]

theorem isDigit_ne {c : Char} (h : c.isDigit = true) (d : Char) (hd : d.isDigit = false) :
    c ≠ d := by
  intro he
  rw [he, hd] at h
  exact Bool.noConfusion h

theorem digit_not_ws {c : Char} (h : c.isDigit = true) : jsIsWhitespace c = false := by
  have h1 : c ≠ ' ' := isDigit_ne h ' ' (by decide)
  have h2 : c ≠ '\t' := isDigit_ne h '\t' (by decide)
  have h3 : c ≠ '\n' := isDigit_ne h '\n' (by decide)
  have h4 : c ≠ '\r' := isDigit_ne h '\r' (by decide)
  have h5 : c ≠ '\x0b' := isDigit_ne h '\x0b' (by decide)
  have h6 : c ≠ '\x0c' := isDigit_ne h '\x0c' (by decide)
  simp [jsIsWhitespace, h1, h2, h3, h4, h5, h6]

theorem dropWhile_eq_self_of_all {α : Type} {p : α → Bool} {l : List α}
    (h : ∀ x ∈ l, p x = false) : l.dropWhile p = l := by
  cases l with
  | nil => rfl
  | cons a l =>
    rw [List.dropWhile_cons, h a (List.mem_cons_self _ _)]
    simp

theorem jsTrim_eq_self {l : List Char} (h : ∀ x ∈ l, jsIsWhitespace x = false) :
    jsTrim l = l := by
  unfold jsTrim
  rw [dropWhile_eq_self_of_all h,
    dropWhile_eq_self_of_all (fun x hx => h x (List.mem_reverse.mp hx)),
    List.reverse_reverse]

theorem parseUnsigned_digits {ds : List Char} (hne : ds ≠ [])
    (hd : ∀ c ∈ ds, c.isDigit = true) :
    parseUnsigned ds = some ((natDigits ds : ℚ), []) := by
  have ht : ds.takeWhile Char.isDigit = ds := List.takeWhile_eq_self_iff.mpr hd
  have hdw : ds.dropWhile Char.isDigit = [] := List.dropWhile_eq_nil_iff.mpr hd
  unfold parseUnsigned
  rw [ht, hdw]
  simp [hne, readExponent, natDigits]

theorem parseSigned_digits {ds : List Char} (hne : ds ≠ [])
    (hd : ∀ c ∈ ds, c.isDigit = true) :
    parseSigned ds = some ((natDigits ds : ℚ), []) := by
  cases ds with
  | nil => exact absurd rfl hne
  | cons c cs =>
    have hc := hd c (List.mem_cons_self _ _)
    have hm : c ≠ '-' := isDigit_ne hc '-' (by decide)
    have hp : c ≠ '+' := isDigit_ne hc '+' (by decide)
    have hstep : parseSigned (c :: cs) =
        if c = '-' then (parseUnsigned cs).map (fun p => (-p.1, p.2))
        else if c = '+' then parseUnsigned cs
        else parseUnsigned (c :: cs) := rfl
    rw [hstep, if_neg hm, if_neg hp]
    exact parseUnsigned_digits hne hd

theorem jsToNumber_of_digits {ds : List Char} (hne : ds ≠ [])
    (hd : ∀ c ∈ ds, c.isDigit = true) :
    jsToNumber ds = some (natDigits ds : ℚ) := by
  have htr : jsTrim ds = ds := jsTrim_eq_self (fun x hx => digit_not_ws (hd x hx))
  simp only [jsToNumber, htr]
  rw [parseSigned_digits hne hd]
  simp [hne]

theorem ratTrunc_intCast (z : ℤ) : ratTrunc (z : ℚ) = z := by
  unfold ratTrunc
  by_cases h : 0 ≤ (z : ℚ)
  · rw [if_pos h, Int.floor_intCast]
  · rw [if_neg h, Int.ceil_intCast]

theorem faceToken_digits {tok ds : List Char}
    (hpre : (jsSplitChar '/' tok).headD [] = ds)
    (hne : ds ≠ []) (hd : ∀ c ∈ ds, c.isDigit = true) :
    faceToken tok = some ((((natDigits ds : ℤ) - 1 : ℤ) : ℚ)) := by
  simp only [faceToken, hpre]
  rw [jsToNumber_of_digits hne hd]
  have hc : ((natDigits ds : ℚ)) - 1 = (((natDigits ds : ℤ) - 1 : ℤ) : ℚ) := by
    push_cast
    ring
  simp only [hc, ratTrunc_intCast]

/-- **C2.** For every well-formed input text — every `v` and every `vn` line
has exactly 3 parseable floating-point fields and every `f` line has exactly
`k` corner tokens — `loadTeapotGeometry` returns `3·V` position components,
`3·N` normal components and `k·F` indices, where `V`, `N`, `F` count the
lines tagged `v`, `vn`, `f`; lines with any other leading tag contribute
nothing to the three arrays. -/
theorem c2_wellformed_lengths (text : String) (k : ℕ)
    (hv : ∀ l ∈ jsLines text, lineTag l = ['v'] →
      ((lineParts l).tail).length = 3 ∧
        ∀ t ∈ (lineParts l).tail, (jsParseFloat t).isSome = true)
    (hn : ∀ l ∈ jsLines text, lineTag l = ['v', 'n'] →
      ((lineParts l).tail).length = 3 ∧
        ∀ t ∈ (lineParts l).tail, (jsParseFloat t).isSome = true)
    (hf : ∀ l ∈ jsLines text, lineTag l = ['f'] → ((lineParts l).tail).length = k) :
    (loadTeapotGeometry text).vertices.length = 3 * countTag ['v'] (jsLines text) ∧
    (loadTeapotGeometry text).normals.length = 3 * countTag ['v', 'n'] (jsLines text) ∧
    (loadTeapotGeometry text).indexes.length = k * countTag ['f'] (jsLines text) := by
  simp only [loadTeapotGeometry, rawGeometry_eq]
  refine ⟨?_, ?_, ?_⟩
  · exact rows_flatten_length ['v'] _ (fun l hl ht => (hv l hl ht).1)
  · exact rows_flatten_length ['v', 'n'] _ (fun l hl ht => (hn l hl ht).1)
  · rw [List.length_map]
    exact lineIndexes_flatten_length k _ hf

/-- Witness for C2 at a concrete well-formed input. -/
theorem c2_wellformed_lengths_witness :
    (loadTeapotGeometry "v 1 2 3\nvn 0 0 1\nf 1 1 1\nfoo bar\n").vertices.length =
      3 * countTag ['v'] (jsLines "v 1 2 3\nvn 0 0 1\nf 1 1 1\nfoo bar\n") ∧
    (loadTeapotGeometry "v 1 2 3\nvn 0 0 1\nf 1 1 1\nfoo bar\n").normals.length =
      3 * countTag ['v', 'n'] (jsLines "v 1 2 3\nvn 0 0 1\nf 1 1 1\nfoo bar\n") ∧
    (loadTeapotGeometry "v 1 2 3\nvn 0 0 1\nf 1 1 1\nfoo bar\n").indexes.length =
      3 * countTag ['f'] (jsLines "v 1 2 3\nvn 0 0 1\nf 1 1 1\nfoo bar\n") :=
  c2_wellformed_lengths "v 1 2 3\nvn 0 0 1\nf 1 1 1\nfoo bar\n" 3
    (by decide) (by decide) (by decide)

/-- **C3 counterexample.** On the input `"f 1"` (a face referencing vertex 1
while no vertex line exists, so `V = 0`) the parsed index list is `[0]` and
the asserted bound `index < V` fails: the parser performs no bounds check. -/
theorem c3_counterexample_index_out_of_range :
    ¬ (∀ i ∈ (loadTeapotGeometry "f 1").indexes,
        i < countTag ['v'] (jsLines "f 1")) := by
  decide

/-- A face-corner token whose numeric prefix (before the first `/`) is an
integer between 1 and `V`. -/
def cornerIndexOK (V : ℕ) (tok : List Char) : Bool :=
  match jsToNumber ((jsSplitChar '/' tok).headD []) with
  | some q => decide (q.den = 1 ∧ 1 ≤ q.num ∧ q.num ≤ (V : ℤ))
  | none => false

/-- **C3 (amended).** If every corner token of every face line references an
existing vertex — its numeric prefix is an integer `n` with `1 ≤ n ≤ V`,
`V` the number of `v` lines — then every value in the returned index array
is `< V` (in particular `0 ≤ value` holds, the values being natural
numbers).  Without that hypothesis the bound fails, see the
counterexample. -/
theorem c3_index_bound (text : String)
    (h : ∀ l ∈ jsLines text, lineTag l = ['f'] → ∀ tok ∈ (lineParts l).tail,
      cornerIndexOK (countTag ['v'] (jsLines text)) tok = true) :
    ∀ i ∈ (loadTeapotGeometry text).indexes, i < countTag ['v'] (jsLines text) := by
  intro i hi
  simp only [loadTeapotGeometry, rawGeometry_eq, List.mem_map] at hi
  obtain ⟨x, hx, rfl⟩ := hi
  rw [List.mem_flatten] at hx
  obtain ⟨li, hli, hxli⟩ := hx
  rw [List.mem_map] at hli
  obtain ⟨l, hl, rfl⟩ := hli
  unfold lineIndexes at hxli
  by_cases ht : lineTag l = ['f']
  · rw [if_pos ht, List.mem_map] at hxli
    obtain ⟨tok, htok, rfl⟩ := hxli
    have hc := h l hl ht tok htok
    unfold cornerIndexOK at hc
    cases hjs : jsToNumber ((jsSplitChar '/' tok).headD []) with
    | none => rw [hjs] at hc; exact Bool.noConfusion hc
    | some q =>
      rw [hjs] at hc
      have hq := of_decide_eq_true hc
      obtain ⟨hden, hlo, hhi⟩ := hq
      have hqnum : q = ((q.num : ℤ) : ℚ) := by
        rw [← Rat.num_div_den q, hden]
        simp
      have hsub : q - 1 = (((q.num - 1 : ℤ) : ℤ) : ℚ) := by
        push_cast
        rw [← hqnum]
      simp only [faceToken]
      rw [hjs]
      show toUint16 (some ((ratTrunc (q - 1) : ℤ) : ℚ)) < countTag ['v'] (jsLines text)
      rw [hsub, ratTrunc_intCast]
      show ((ratTrunc ((q.num - 1 : ℤ) : ℚ)) % 65536).toNat < countTag ['v'] (jsLines text)
      rw [ratTrunc_intCast]
      omega
  · rw [if_neg ht] at hxli
    exact absurd hxli (List.not_mem_nil x)

/-- Witness for the amended C3 at a concrete in-bounds input: the stored
index 0 of `"v 1 2 3\nf 1 1"` is below its vertex count. -/
theorem c3_index_bound_witness :
    (0 : ℕ) < countTag ['v'] (jsLines "v 1 2 3\nf 1 1") :=
  c3_index_bound "v 1 2 3\nf 1 1" (by decide) 0 (by decide)

/-- **C4.** Face-corner parsing converts 1-based to 0-based: for every corner
token whose substring before the first `/` is a nonempty decimal digit
string of value `n`, the appended raw index value is `n - 1`; the token
`"5"` yields stored index 4; the end-to-end scenario text parses to 3
vertices and indices `[0, 1, 2]`; and the `texIndex`/`normalIndex`
components after `/` do not affect the result (the general part depends
only on the substring before the first `/`; concretely `"5/7/9"` parses
like `"5"`). -/
theorem c4_face_index_one_based (tok ds : List Char) (n : ℕ)
    (hpre : (jsSplitChar '/' tok).headD [] = ds)
    (hne : ds ≠ [])
    (hd : ∀ c ∈ ds, c.isDigit = true)
    (hval : natDigits ds = n) :
    faceToken tok = some ((((n : ℤ) - 1 : ℤ) : ℚ)) ∧
    toUint16 (faceToken ['5']) = 4 ∧
    (rawGeometry "v 0 0 0\nv 1 0 0\nv 0 1 0\nf 1 2 3\n").vertices.length = 3 ∧
    (loadTeapotGeometry "v 0 0 0\nv 1 0 0\nv 0 1 0\nf 1 2 3\n").indexes = [0, 1, 2] ∧
    faceToken ['5', '/', '7', '/', '9'] = faceToken ['5'] := by
  refine ⟨?_, by decide, by decide, by decide, by decide⟩
  subst hval
  exact faceToken_digits hpre hne hd

/-- Witness for C4 at the corner token `"5"`. -/
theorem c4_face_index_one_based_witness :
    faceToken ['5'] = some (((((5 : ℕ) : ℤ) - 1 : ℤ) : ℚ)) ∧
    toUint16 (faceToken ['5']) = 4 ∧
    (rawGeometry "v 0 0 0\nv 1 0 0\nv 0 1 0\nf 1 2 3\n").vertices.length = 3 ∧
    (loadTeapotGeometry "v 0 0 0\nv 1 0 0\nv 0 1 0\nf 1 2 3\n").indexes = [0, 1, 2] ∧
    faceToken ['5', '/', '7', '/', '9'] = faceToken ['5'] :=
  c4_face_index_one_based ['5'] ['5'] 5 rfl (by decide) (by decide) (by decide)

/-- `perspectiveProjection(fov, aspect, near, far)` from the source, over the
real numbers (the source computes with IEEE doubles via `Math.tan`). -/
noncomputable def perspectiveProjection (fov aspect near far : ℝ) : List ℝ :=
  let f := 1 / Real.tan (fov / 2)
  [f / aspect, 0, 0, 0,
   0, f, 0, 0,
   0, 0, (far + near) / (near - far), -1,
   0, 0, 2 * far * near / (near - far), 0]

/-- **C5.** The projection builder computes `f = 1/tan(fov/2)` and the
column-major entries `[f/aspect,0,0,0; 0,f,0,0; 0,0,(far+near)/(near-far),-1;
0,0,2·far·near/(near-far),0]`; with `fov = π/2`, `aspect = 1`, `near = 1`,
`far = 2` it yields `f = 1`, entry 10 equal to `-3` and entry 14 equal to
`-4`. -/
theorem c5_perspective_projection_entries :
    (∀ fov aspect near far : ℝ,
      perspectiveProjection fov aspect near far =
        [1 / Real.tan (fov / 2) / aspect, 0, 0, 0,
         0, 1 / Real.tan (fov / 2), 0, 0,
         0, 0, (far + near) / (near - far), -1,
         0, 0, 2 * far * near / (near - far), 0]) ∧
    1 / Real.tan (Real.pi / 2 / 2) = 1 ∧
    (perspectiveProjection (Real.pi / 2) 1 1 2).getD 10 0 = -3 ∧
    (perspectiveProjection (Real.pi / 2) 1 1 2).getD 14 0 = -4 := by
  have hq : Real.pi / 2 / 2 = Real.pi / 4 := by ring
  have htan : Real.tan (Real.pi / 2 / 2) = 1 := by rw [hq, Real.tan_pi_div_four]
  refine ⟨fun fov aspect near far => rfl, by rw [htan]; norm_num, ?_, ?_⟩
  · simp only [perspectiveProjection, List.getD]
    norm_num
  · simp only [perspectiveProjection, List.getD]
    norm_num

/-- `rotationSpeed` of the keydown handler. -/
def rotationSpeed : ℝ := 0.19

/-- The `keydown` event handler: `ArrowLeft` decrements the rotation angle
by `rotationSpeed`, `ArrowRight` increments it, all other keys leave it
unchanged. -/
def keydownHandler (key : String) (rotationAngle : ℝ) : ℝ :=
  if key = "ArrowLeft" then rotationAngle - rotationSpeed
  else if key = "ArrowRight" then rotationAngle + rotationSpeed
  else rotationAngle

/-- **C6.** For every starting angle, `ArrowLeft` subtracts exactly 0.19
radians and `ArrowRight` adds exactly 0.19; rotate-left followed by
rotate-right restores the angle exactly; and the accumulated angle is never
bounded or normalized — `n` rotate-right events add exactly `n · 0.19`
without wrap-around (real-number model; the source accumulates IEEE
doubles). -/
theorem c6_rotation_step :
    ∀ a : ℝ,
      keydownHandler "ArrowLeft" a = a - 0.19 ∧
      keydownHandler "ArrowRight" a = a + 0.19 ∧
      keydownHandler "ArrowRight" (keydownHandler "ArrowLeft" a) = a ∧
      ∀ n : ℕ, (keydownHandler "ArrowRight")^[n] a = a + n * 0.19 := by
  have hl : ∀ x : ℝ, keydownHandler "ArrowLeft" x = x - 0.19 := by
    intro x
    simp [keydownHandler, rotationSpeed]
  have hr : ∀ x : ℝ, keydownHandler "ArrowRight" x = x + 0.19 := by
    intro x
    simp [keydownHandler, rotationSpeed]
  intro a
  refine ⟨hl a, hr a, ?_, ?_⟩
  · rw [hl a, hr]
    ring
  · intro n
    induction n with
    | zero => simp
    | succ m ih =>
      rw [Function.iterate_succ_apply', ih, hr]
      push_cast
      ring

/-- The two shader stages of the pipeline. -/
inductive ShaderKind where
  | vertex
  | fragment
deriving DecidableEq

/-- The rendering-context calls `setupShaderProgram` can make, including the
status queries (`getShaderParameter(COMPILE_STATUS)`,
`getProgramParameter(LINK_STATUS)`) that a conforming builder would need. -/
inductive GLCall where
  | createShader (kind : ShaderKind)
  | shaderSource (kind : ShaderKind) (src : String)
  | compileShader (kind : ShaderKind)
  | createProgram
  | attachShader (kind : ShaderKind)
  | linkProgram
  | getShaderParameter (kind : ShaderKind)
  | getProgramParameter
deriving DecidableEq

/-- The vertex-stage GLSL source attached by `setupShaderProgram`
(`src/teapot.mjs`; braces written `\x7b`/`\x7d`). -/
def vertexShaderSrc : String :=
  "attribute vec3 position;\nattribute vec3 normal;\nuniform mat4 modelViewMatrix;\nuniform mat4 perspectiveMatrix;\nvarying vec3 fragNormal;\nvoid main() \x7b\n  gl_Position = perspectiveMatrix * modelViewMatrix * vec4(position, 1);\n  fragNormal = (perspectiveMatrix * modelViewMatrix * vec4(normal, 0.0)).xyz;\n\x7d\n"

/-- The fragment-stage GLSL source attached by `setupShaderProgram`
(`src/teapot.mjs`; braces written `\x7b`/`\x7d`). -/
def fragmentShaderSrc : String :=
  "precision mediump float;\nvarying vec3 fragNormal;\nvoid main() \x7b\n  vec3 lightDirection = normalize(vec3(0.5, 0.5, 1.0));\n  float brightness = max(dot(normalize(fragNormal), lightDirection), 0.0);\n  vec3 color = vec3(1.0, 0.0, 0.0);\n  gl_FragColor = vec4(color * brightness, 1.0);\n\x7d\n"

/-- The exact sequence of rendering-context calls made by
`setupShaderProgram`, in source order; the function then returns the
program handle unconditionally (it has no failure path). -/
def setupShaderProgram : List GLCall :=
  [GLCall.createShader ShaderKind.vertex,
   GLCall.createShader ShaderKind.fragment,
   GLCall.shaderSource ShaderKind.vertex vertexShaderSrc,
   GLCall.shaderSource ShaderKind.fragment fragmentShaderSrc,
   GLCall.compileShader ShaderKind.vertex,
   GLCall.compileShader ShaderKind.fragment,
   GLCall.createProgram,
   GLCall.attachShader ShaderKind.vertex,
   GLCall.attachShader ShaderKind.fragment,
   GLCall.linkProgram]

/-- Is this call a compile-status or link-status query? -/
def isStatusQuery : GLCall → Bool
  | GLCall.getShaderParameter _ => true
  | GLCall.getProgramParameter => true
  | _ => false

/-- **C7.** The builder compiles both stages and links the program but
performs no compile-status and no link-status query anywhere in its call
sequence, so it can never raise `ShaderCompileError`/`ShaderLinkError`: it
returns the (possibly unusable) program unconditionally, contrary to the
claimed behavior. -/
theorem c7_no_status_query :
    setupShaderProgram.filter (fun c => isStatusQuery c) = [] ∧
    GLCall.compileShader ShaderKind.vertex ∈ setupShaderProgram ∧
    GLCall.compileShader ShaderKind.fragment ∈ setupShaderProgram ∧
    GLCall.linkProgram ∈ setupShaderProgram := by
  decide

/-- **C8.** Indices are stored as 16-bit unsigned integers: the output index
array is the raw parsed index list mapped through the `ToUint16` conversion;
on every integer value `z` that conversion is `z mod 2^16`; concretely a
face referencing vertices 65537 and 65538 wraps silently to indices 0
and 1. -/
theorem c8_uint16_wraparound :
    (∀ text : String,
      (loadTeapotGeometry text).indexes = (rawGeometry text).indexes.map toUint16) ∧
    (∀ z : ℤ, toUint16 (some ((z : ℤ) : ℚ)) = (z % 65536).toNat) ∧
    (loadTeapotGeometry "f 65537 65538 1").indexes = [0, 1, 0] := by
  refine ⟨fun text => rfl, fun z => ?_, by decide⟩
  show ((ratTrunc ((z : ℤ) : ℚ)) % 65536).toNat = (z % 65536).toNat
  rw [ratTrunc_intCast]

/-- **C9 counterexample.** A tab-separated vertex record does not parse to
the same mesh as the space-separated one: the code splits on the single
space character only, so `"v\t1\t2\t3"` is one unrecognized token and the
line is ignored entirely. -/
theorem c9_counterexample_tab_not_space :
    ¬ (loadTeapotGeometry "v\t1\t2\t3" = loadTeapotGeometry "v 1 2 3") := by
  decide

/-- **C9 (amended).** The parser splits each trimmed line on the single
space character, not on general whitespace: a single-space-separated vertex
record parses to its three floats, while the same record separated by tabs
is ignored (its first token is not a recognized tag) and a record with a
run of two spaces gains an empty field that parses as `NaN`. -/
theorem c9_single_space_split :
    (∀ line : List Char, lineParts line = jsSplitChar ' ' (jsTrim line)) ∧
    (loadTeapotGeometry "v 1 2 3").vertices = [some 1, some 2, some 3] ∧
    (loadTeapotGeometry "v\t1\t2\t3").vertices = [] ∧
    (loadTeapotGeometry "v  1 2 3").vertices = [none, some 1, some 2, some 3] :=
  ⟨fun line => rfl, by decide, by decide, by decide⟩

/-- **C10 counterexample.** On the input `"f x"` the unparseable numeric
field is `NaN` in the internal index list but the returned `Uint16Array`
stores `0` for it — the output does not carry a `NaN` value, contrary to
the claim that unparseable fields are coerced to `NaN` in the output. -/
theorem c10_counterexample_nan_not_in_output :
    (rawGeometry "f x").indexes = [none] ∧
    (loadTeapotGeometry "f x").indexes = [0] := by
  decide

/-- **C10 (amended).** Parsing is total: for every input text it returns the
three arrays without any error path (the model, like the source loop, is a
total function).  Unparseable `v`/`vn` fields surface as `NaN` in the float
outputs; an unparseable face field becomes `NaN` internally but is stored
as `0` in the 16-bit index output. -/
theorem c10_total_parse :
    (∀ text : String,
      loadTeapotGeometry text =
        { indexes := (rawGeometry text).indexes.map toUint16
          vertices := (rawGeometry text).vertices.flatten
          normals := (rawGeometry text).normals.flatten }) ∧
    (loadTeapotGeometry "v x 2 3\nvn y 1 z").vertices = [none, some 2, some 3] ∧
    (loadTeapotGeometry "v x 2 3\nvn y 1 z").normals = [none, some 1, none] ∧
    toUint16 none = 0 :=
  ⟨fun text => rfl, by decide, by decide, rfl⟩

/-- **C1.** Evaluation of the parser at the failing input `"v 1 2\n"`: the
vertex line with only two fields is accepted and yields a two-component
vertex row — no `MalformedMeshError` is raised (the code has no error path
at all), contrary to the claimed contract. -/
theorem c1_malformed_vertex_not_rejected :
    loadTeapotGeometry "v 1 2\n" =
      { indexes := [], vertices := [some 1, some 2], normals := [] } := by
  decide

